import Mathlib

/-!
Verification of the EventCenter reactor core (Ceph async messenger event
substrate) against its natural-language specification.

The embedding follows the C++ source:
- `Event.h` (shipped inside `src/src/librados/IoCtxImpl.h`): `EventCenter`,
  `EventCenter::submit_to`, `EventCenter::C_submit_event`,
  `EventCenter::in_thread`, `EventCenter::_get_file_event`,
  `EventCenter::MAX_EVENTCENTER`, `EventCenter::AssociatedCenters`.
- `PosixStack.h` (`src/unnamed/part_001`): `PosixNetworkStack::spawn_worker`,
  `PosixNetworkStack::join_worker`.
Bodies that live only in `Event.cc` (not in the source tree):
`dispatch_event_external`, `process_time_events`, `delete_time_event` are
modelled from the specification and marked as such in their doc comments.

Pure sequential behaviour is embedded as Lean functions; the observable
side effects of a call (queue appends, self-pipe writes, callback
invocations, removals) are recorded as explicit step traces; blocking
primitives (`wait`, `join`) are embedded as outcome values whose
completion conditions are stated explicitly.
-/

namespace CephEvent

/-- `static const int MAX_EVENTCENTER = 24;` -/
def MAX_EVENTCENTER : Nat := 24

/-- The per-`EventCenter` state relevant to cross-thread submission:
`pthread_t owner` recorded by `set_owner()`.  Thread identities are
modelled as natural numbers. -/
structure EventCenterM where
  owner : Nat
  deriving DecidableEq, Repr

/-- `in_thread()`: `pthread_equal(pthread_self(), owner)`.  `self` is the
identity of the calling thread. -/
def in_thread (self : Nat) (c : EventCenterM) : Bool :=
  self == c.owner

/-- `struct AssociatedCenters { EventCenter *centers[MAX_EVENTCENTER]; ... }`.
The fixed array of nullable pointers is modelled as a list of optional
centers; the constructor `memset`s every slot to null. -/
structure AssociatedCenters where
  centers : List (Option EventCenterM)
  deriving DecidableEq, Repr

/-- The `AssociatedCenters` constructor: all `MAX_EVENTCENTER` slots are
zeroed (null). -/
def AssociatedCenters.init : AssociatedCenters :=
  ⟨List.replicate MAX_EVENTCENTER none⟩

/-- `global_centers->centers[i]`: the (nullable) pointer in slot `i`. -/
def AssociatedCenters.slot (gc : AssociatedCenters) (i : Nat) : Option EventCenterM :=
  gc.centers.getD i none

/-- Observable side-effect steps performed during a `submit_to` call. -/
inductive SubmitStep where
  /-- an append to the target center's `external_events` deque -/
  | queueAppend
  /-- a one-byte write to the target center's self-pipe (`wakeup`) -/
  | pipeWrite
  /-- `f()` invoked synchronously in place by the calling thread -/
  | runInPlace
  /-- `event.wait()`: caller blocks until the wrapper's `done` flag -/
  | waitForDone
  deriving DecidableEq, Repr

/-- Modelled from the spec: the body of `dispatch_event_external` is not in
the source tree (only its declaration is); per the spec it "appends under
the queue mutex and writes one byte to the self-pipe".  Its observable
effect trace is therefore one queue append followed by one pipe write. -/
def dispatch_event_external_trace : List SubmitStep :=
  [SubmitStep.queueAppend, SubmitStep.pipeWrite]

/-- Result of a `submit_to` call: either one of its `ceph_assert`s fires,
or the call returns having performed `trace`, possibly having heap- or
stack-allocated a `C_submit_event` wrapper whose `nonwait` flag is
`wrapperNonwait` (`none` when no wrapper was built, i.e. the in-thread
fast path). -/
inductive SubmitOutcome where
  | assertFail
  | done (trace : List SubmitStep) (wrapperNonwait : Option Bool)
  deriving DecidableEq, Repr

/-- `EventCenter::submit_to(int i, func &&f, bool always_async)`:
```
ceph_assert(i < MAX_EVENTCENTER && global_centers);
EventCenter *c = global_centers->centers[i];
ceph_assert(c);
if (always_async) {
  C_submit_event<func> *event = new C_submit_event<func>(std::move(f), true);
  c->dispatch_event_external(event);
} else if (c->in_thread()) {
  f();
  return;
} else {
  C_submit_event<func> event(std::move(f), false);
  c->dispatch_event_external(&event);
  event.wait();
}
```
`self` is the calling thread's identity, `g` the (nullable)
`global_centers` registry. -/
def submit_to (self : Nat) (g : Option AssociatedCenters) (i : Nat)
    (always_async : Bool) : SubmitOutcome :=
  match g with
  | none => SubmitOutcome.assertFail
  | some gc =>
    if i < MAX_EVENTCENTER then
      match gc.slot i with
      | none => SubmitOutcome.assertFail
      | some c =>
        if always_async then
          SubmitOutcome.done dispatch_event_external_trace (some true)
        else if in_thread self c then
          SubmitOutcome.done [SubmitStep.runInPlace] none
        else
          SubmitOutcome.done
            (dispatch_event_external_trace ++ [SubmitStep.waitForDone])
            (some false)
    else SubmitOutcome.assertFail

/-- The run-time state of a `C_submit_event<func>` wrapper.  `f_executed`
is a ghost flag recording whether `f()` has returned; `done` is the field
of the same name; `nonwait` is set at construction; `deleted` records
whether `delete this` ran. -/
structure C_submit_event where
  done : Bool
  f_executed : Bool
  nonwait : Bool
  deleted : Bool
  deriving DecidableEq, Repr

/-- `C_submit_event(func &&_f, bool nowait)`: `done` starts false, `f` has
not run, `nonwait` is the constructor argument. -/
def mkSubmitEvent (nowait : Bool) : C_submit_event :=
  { done := false, f_executed := false, nonwait := nowait, deleted := false }

/-- Steps performed by `C_submit_event::do_request`, in order. -/
inductive ReqStep where
  /-- the call `f()` -/
  | callF
  /-- `done = true` (after `cond.notify_all()`), under the lock -/
  | setDone
  /-- `delete this` (taken iff `nonwait`) -/
  | selfDelete
  deriving DecidableEq, Repr

/-- `C_submit_event::do_request(uint64_t id)`:
```
f();
lock.lock();
cond.notify_all();
done = true;
bool del = nonwait;
lock.unlock();
if (del) delete this;
```
Returns the post-state and the ordered trace of steps taken. -/
def do_request (e : C_submit_event) : C_submit_event × List ReqStep :=
  let e1 := { e with f_executed := true }
  let e2 := { e1 with done := true }
  let e3 := { e2 with deleted := e2.nonwait }
  (e3, [ReqStep.callF, ReqStep.setDone] ++
        (if e2.nonwait then [ReqStep.selfDelete] else []))

/-- Outcome of `C_submit_event::wait()`. -/
inductive WaitOutcome where
  /-- `ceph_assert(!nonwait)` fired -/
  | assertFail
  /-- the caller blocks on `cond` until `done` is true, then returns -/
  | blockedUntilDone
  deriving DecidableEq, Repr

/-- `C_submit_event::wait()`:
```
ceph_assert(!nonwait);
std::unique_lock<std::mutex> l(lock);
while (!done)
  cond.wait(l);
```
The assertion fires iff `nonwait`; otherwise the caller blocks until the
`done` flag holds. -/
def C_submit_event.wait (e : C_submit_event) : WaitOutcome :=
  if e.nonwait then WaitOutcome.assertFail else WaitOutcome.blockedUntilDone

/-- `wait()` returns (its `while (!done) cond.wait(l)` loop exits) in a
given wrapper state exactly when it did not assert and `done` holds. -/
def wait_returns (e : C_submit_event) : Bool :=
  !e.nonwait && e.done

/-- Wrapper states reachable during one submission: the freshly
constructed wrapper, and any state produced by running `do_request`. -/
inductive SEReach : C_submit_event → Prop
  | init (nowait : Bool) : SEReach (mkSubmitEvent nowait)
  | step (e : C_submit_event) : SEReach e → SEReach (do_request e).1

/-! ## Timer events

`std::multimap<clock_type::time_point, TimeEvent> time_events` (ordered by
absolute deadline, duplicates allowed) is modelled as a list of
`(deadline, id)` pairs sorted by deadline, callbacks abstracted by the
64-bit event id that is passed to them.
`std::map<uint64_t, iterator> event_map` is modelled by its key set: the
list of ids currently registered (a `std::map` has unique keys, and the
mapped iterator is recoverable from the id by searching `time_events`). -/

/-- State of the timer machinery of one `EventCenter`. -/
structure TimerState where
  time_events : List (Nat × Nat)
  event_map : List Nat
  deriving DecidableEq, Repr

/-- Observable steps of expired-timer processing. -/
inductive TimerStep where
  /-- `time_events.erase(it)` for the entry with this id -/
  | removeTE (id : Nat)
  /-- `event_map.erase(id)` -/
  | removeEM (id : Nat)
  /-- `cb->do_request(id)` -/
  | invoke (id : Nat)
  deriving DecidableEq, Repr

/-- The ordered steps the reactor performs for one expired timer entry:
erase it from the deadline multimap, erase it from the id index, then
invoke its callback. -/
def timerBlock (id : Nat) : List TimerStep :=
  [TimerStep.removeTE id, TimerStep.removeEM id, TimerStep.invoke id]

/-- Modelled from the spec: the body of `EventCenter::process_time_events`
is not in the source tree (only its declaration and the two indexes are).
Per the spec it walks the deadline-ordered collection from the earliest
entry while `deadline <= now`, removes each expired entry from both
indexes before invoking its callback, and stops at the first future
deadline.  Takes `now` and the two indexes; returns the remaining
deadline-ordered list, the remaining id index, and the ordered step
trace. -/
def process_time_events (now : Nat) :
    List (Nat × Nat) → List Nat → List (Nat × Nat) × List Nat × List TimerStep
  | [], em => ([], em, [])
  | (t, id) :: rest, em =>
    if t ≤ now then
      let r := process_time_events now rest (em.filter (fun x => x ≠ id))
      (r.1, r.2.1, timerBlock id ++ r.2.2)
    else ((t, id) :: rest, em, [])

/-- Modelled from the spec: the body of `EventCenter::delete_time_event`
is not in the source tree (only its declaration and the two indexes are).
Per the spec it "removes the entry if present; unknown or already-fired
ids are a no-op, not an error".  Erasure from the unique-key `std::map`
and of that entry from the multimap is modelled by filtering the id
out of both indexes. -/
def delete_time_event (id : Nat) (s : TimerState) : TimerState :=
  if id ∈ s.event_map then
    { time_events := s.time_events.filter (fun p => p.2 ≠ id),
      event_map := s.event_map.filter (fun x => x ≠ id) }
  else s

/-! ## File-event table -/

/-- `struct FileEvent { int mask; EventCallbackRef read_cb; EventCallbackRef write_cb; }`.
Callback pointers are abstracted as optional tokens. -/
structure FileEvent where
  mask : Nat
  read_cb : Option Nat
  write_cb : Option Nat
  deriving DecidableEq, Repr

/-- The slice of `EventCenter` state that `_get_file_event` touches:
`int nevent` (the table capacity) and
`std::vector<FileEvent> file_events`. -/
structure FileEventTable where
  nevent : Nat
  file_events : List FileEvent
  deriving DecidableEq, Repr

/-- `EventCenter::_get_file_event(int fd)`:
```
ceph_assert(fd < nevent);
return &file_events[fd];
```
`none` models the assertion firing; otherwise the entry at index `fd` is
returned. -/
def _get_file_event (c : FileEventTable) (fd : Nat) : Option FileEvent :=
  if fd < c.nevent then c.file_events.get? fd else none

/-! ## PosixNetworkStack worker threads -/

/-- One element of `std::vector<std::thread> threads`: the entry function
it was spawned with (abstracted as a token) and whether it is joinable. -/
structure ThreadRec where
  entry : Nat
  joinable : Bool
  deriving DecidableEq, Repr

/-- `class PosixNetworkStack`'s thread pool. -/
structure PosixNetworkStack where
  threads : List ThreadRec
  deriving DecidableEq, Repr

/-- `PosixNetworkStack::spawn_worker(std::function<void()> &&func)`:
`threads.emplace_back(std::move(func));` — a freshly constructed
`std::thread` is joinable. -/
def spawn_worker (s : PosixNetworkStack) (func : Nat) : PosixNetworkStack :=
  { threads := s.threads ++ [{ entry := func, joinable := true }] }

/-- Outcome of `PosixNetworkStack::join_worker(unsigned i)`. -/
inductive JoinOutcome where
  /-- `ceph_assert(threads.size() > i && threads[i].joinable())` fired -/
  | assertFail
  /-- `threads[i].join()`: the caller blocks until thread `i` exits -/
  | blockedUntilExit
  deriving DecidableEq, Repr

/-- `PosixNetworkStack::join_worker(unsigned i)`:
```
ceph_assert(threads.size() > i && threads[i].joinable());
threads[i].join();
```
-/
def join_worker (s : PosixNetworkStack) (i : Nat) : JoinOutcome :=
  if i < s.threads.length ∧ (s.threads.getD i { entry := 0, joinable := false }).joinable
  then JoinOutcome.blockedUntilExit
  else JoinOutcome.assertFail

/-- `std::thread::join` contract: `join_worker s i` returns to its caller,
given that thread `i`'s execution state is described by
`exited : Nat → Bool`, exactly when the assertion did not fire and thread
`i` has finished executing. -/
def join_worker_returns (s : PosixNetworkStack) (i : Nat) (exited : Nat → Bool) : Bool :=
  (join_worker s i == JoinOutcome.blockedUntilExit) && exited i

/-! ## Concrete sample values used by witnesses and counterexamples -/

/-- A sample center owned by thread 0. -/
def sampleCenter : EventCenterM := { owner := 0 }

/-- A sample registry: 24 null slots with `sampleCenter` registered at
index 0. -/
def sampleRegistry : AssociatedCenters :=
  ⟨(List.replicate MAX_EVENTCENTER (none : Option EventCenterM)).set 0
      (some sampleCenter)⟩

end CephEvent

namespace CephEvent

/-- C3: `submit_to(i, f)` with the default `always_async = false`, called
from center `i`'s own owning thread, runs `f` synchronously in place; the
call's trace is exactly one in-place run, so it contains no external-queue
append and no self-pipe write, and no wrapper is built (the
`dispatch_event_external` path is never reached). -/
theorem submit_to_self_default_runs_in_place
    (self i : Nat) (gc : AssociatedCenters) (c : EventCenterM)
    (hi : i < MAX_EVENTCENTER) (hc : gc.slot i = some c)
    (ht : in_thread self c = true) :
    submit_to self (some gc) i false
      = SubmitOutcome.done [SubmitStep.runInPlace] none ∧
    ∀ t w, submit_to self (some gc) i false = SubmitOutcome.done t w →
      SubmitStep.queueAppend ∉ t ∧ SubmitStep.pipeWrite ∉ t ∧ w = none := by
  have h : submit_to self (some gc) i false
      = SubmitOutcome.done [SubmitStep.runInPlace] none := by
    simp [submit_to, hi, hc, ht]
  refine ⟨h, ?_⟩
  intro t w hw
  rw [h] at hw
  cases hw
  exact ⟨by decide, by decide, rfl⟩

/-- Witness for C3 at a concrete call: thread 0 submitting to index 0 of
`sampleRegistry`, whose center is owned by thread 0. -/
theorem submit_to_self_default_runs_in_place_w :
    submit_to 0 (some sampleRegistry) 0 false
      = SubmitOutcome.done [SubmitStep.runInPlace] none :=
  (submit_to_self_default_runs_in_place 0 0 sampleRegistry sampleCenter
    (by decide) (by decide) (by decide)).1

/-- Helper: `delete_time_event` on an unregistered id does nothing. -/
lemma delete_time_event_not_mem (id : Nat) (s : TimerState)
    (h : id ∉ s.event_map) : delete_time_event id s = s := by
  simp [delete_time_event, h]

/-- Helper: after `delete_time_event id`, `id` is no longer registered. -/
lemma not_mem_after_delete (id : Nat) (s : TimerState) :
    id ∉ (delete_time_event id s).event_map := by
  by_cases h : id ∈ s.event_map <;> simp [delete_time_event, h]

/-- C6: `delete_time_event(id)` on an id absent from the id index is a
no-op that signals no error, and deleting the same id twice equals
deleting it once. -/
theorem delete_time_event_idempotent :
    (∀ id s, id ∉ s.event_map → delete_time_event id s = s) ∧
    (∀ id s, delete_time_event id (delete_time_event id s)
      = delete_time_event id s) := by
  refine ⟨fun id s h => delete_time_event_not_mem id s h, fun id s => ?_⟩
  exact delete_time_event_not_mem id _ (not_mem_after_delete id s)

/-- Witness for C6: deleting id 5, never registered, leaves a concrete
timer state untouched. -/
theorem delete_time_event_idempotent_w :
    delete_time_event 5 { time_events := [(1, 3)], event_map := [3] }
      = { time_events := [(1, 3)], event_map := [3] } :=
  delete_time_event_idempotent.1 5
    { time_events := [(1, 3)], event_map := [3] } (by decide)

/-- C7: the cross-center registry holds at most 24 entries:
`MAX_EVENTCENTER = 24`, the freshly constructed `AssociatedCenters` has
exactly 24 slots all null, and `submit_to(i, ...)` passes its assertions
only when `i < MAX_EVENTCENTER`, the registry pointer is non-null, and
slot `i` holds a registered center. -/
theorem registry_bounded_and_asserted :
    MAX_EVENTCENTER = 24 ∧
    AssociatedCenters.init.centers.length = MAX_EVENTCENTER ∧
    (∀ x ∈ AssociatedCenters.init.centers, x = none) ∧
    (∀ self g i aa, submit_to self g i aa ≠ SubmitOutcome.assertFail →
      i < MAX_EVENTCENTER ∧
        ∃ gc c, g = some gc ∧ gc.slot i = some c) := by
  refine ⟨rfl, rfl, ?_, ?_⟩
  · intro x hx
    exact List.eq_of_mem_replicate hx
  · intro self g i aa h
    match g with
    | none => exact absurd rfl h
    | some gc =>
      by_cases hi : i < MAX_EVENTCENTER
      · refine ⟨hi, gc, ?_⟩
        match hgc : gc.slot i with
        | none =>
          exfalso
          apply h
          simp [submit_to, hi, hgc]
        | some c => exact ⟨c, rfl, rfl⟩
      · exfalso
        apply h
        simp [submit_to, hi]

/-- Witness for C7: slot 0 of the initial registry is null, and a
successful concrete `submit_to` call implies its index is in range and
its slot is occupied. -/
theorem registry_bounded_and_asserted_w :
    AssociatedCenters.init.centers.getD 0 none = none ∧
    (0 < MAX_EVENTCENTER ∧
      ∃ gc c, (some sampleRegistry : Option AssociatedCenters) = some gc ∧
        gc.slot 0 = some c) :=
  ⟨registry_bounded_and_asserted.2.2.1 _ (by decide),
   registry_bounded_and_asserted.2.2.2 0 (some sampleRegistry) 0 false
     (by decide)⟩

/-- C9: calling `wait()` on a `C_submit_event` constructed with
`nonwait = true` (the wrapper built by the `always_async` path of
`submit_to`) fires `ceph_assert(!nonwait)`; on a wrapper constructed for
synchronous submission (`nonwait = false`) that assertion never fires. -/
theorem wait_asserts_iff_nonwait :
    (∀ e : C_submit_event, e.nonwait = true →
      e.wait = WaitOutcome.assertFail) ∧
    (∀ e : C_submit_event, e.nonwait = false →
      e.wait ≠ WaitOutcome.assertFail) ∧
    (∀ self i gc c t w, i < MAX_EVENTCENTER →
      gc.slot i = some c →
      submit_to self (some gc) i true = SubmitOutcome.done t w →
      w = some true) ∧
    (mkSubmitEvent true).wait = WaitOutcome.assertFail := by
  refine ⟨?_, ?_, ?_, rfl⟩
  · intro e h
    simp [C_submit_event.wait, h]
  · intro e h
    simp [C_submit_event.wait, h]
  · intro self i gc c t w hi hc hs
    rw [show submit_to self (some gc) i true
        = SubmitOutcome.done dispatch_event_external_trace (some true) by
      simp [submit_to, hi, hc]] at hs
    cases hs
    rfl

/-- Witness for C9: the concrete async wrapper asserts in `wait()`, the
concrete sync wrapper does not, and a concrete `always_async` submission
builds a `nonwait = true` wrapper. -/
theorem wait_asserts_iff_nonwait_w :
    (mkSubmitEvent true).wait = WaitOutcome.assertFail ∧
    (mkSubmitEvent false).wait ≠ WaitOutcome.assertFail ∧
    (some true : Option Bool) = some true :=
  ⟨wait_asserts_iff_nonwait.1 (mkSubmitEvent true) rfl,
   wait_asserts_iff_nonwait.2.1 (mkSubmitEvent false) rfl,
   wait_asserts_iff_nonwait.2.2.1 1 0 sampleRegistry sampleCenter
     dispatch_event_external_trace (some true) (by decide) (by decide)
     (by decide)⟩

/-- C10: `_get_file_event(fd)` requires `fd < nevent` (the assertion
fires otherwise), and under that precondition — with the table sized to
its capacity, as the resize path maintains — it yields the file-event
table entry at index `fd`. -/
theorem get_file_event_checked
    (c : FileEventTable) (fd : Nat)
    (h1 : fd < c.nevent) (h2 : c.nevent ≤ c.file_events.length) :
    (∃ fe, _get_file_event c fd = some fe ∧
       c.file_events.get? fd = some fe) ∧
    (∀ c' fd', ¬ fd' < FileEventTable.nevent c' →
      _get_file_event c' fd' = none) := by
  constructor
  · have hlt : fd < c.file_events.length := lt_of_lt_of_le h1 h2
    refine ⟨c.file_events.get ⟨fd, hlt⟩, ?_, List.get?_eq_get hlt⟩
    simp [_get_file_event, h1]
  · intro c' fd' h
    simp [_get_file_event, h]

/-- A concrete two-entry file-event table: capacity 2, entry 0 with a
read callback registered, entry 1 empty. -/
def sampleTable : FileEventTable :=
  ⟨2, [⟨1, some 7, none⟩, ⟨0, none, none⟩]⟩

/-- Witness for C10 at `sampleTable`. -/
theorem get_file_event_checked_w :
    ∃ fe, _get_file_event sampleTable 1 = some fe ∧
      sampleTable.file_events.get? 1 = some fe :=
  (get_file_event_checked sampleTable 1 (by decide) (by decide)).1

/-- C1 counterexample: thread 0 is the owning thread of the center in
slot 0 of `sampleRegistry`, yet `submit_to(0, f, always_async = true)`
called from thread 0 appends to the external queue and writes the
self-pipe instead of running `f` in place — `always_async` is tested
before `in_thread()`. -/
theorem submit_to_in_thread_always_async_cex :
    in_thread 0 sampleCenter = true ∧
    sampleRegistry.slot 0 = some sampleCenter ∧
    submit_to 0 (some sampleRegistry) 0 true
      = SubmitOutcome.done [SubmitStep.queueAppend, SubmitStep.pipeWrite]
          (some true) ∧
    submit_to 0 (some sampleRegistry) 0 true
      ≠ SubmitOutcome.done [SubmitStep.runInPlace] none := by
  decide

/-- C1 (amended): from the owning thread, `submit_to` runs `f`
synchronously in place (no queue append, no pipe write) only when
`always_async = false`; with `always_async = true` it wraps `f` in a
`nonwait` callback and enqueues it even from the owning thread. -/
theorem submit_to_in_thread_sync_iff_not_always_async
    (self i : Nat) (gc : AssociatedCenters) (c : EventCenterM)
    (hi : i < MAX_EVENTCENTER) (hc : gc.slot i = some c)
    (ht : in_thread self c = true) :
    submit_to self (some gc) i false
      = SubmitOutcome.done [SubmitStep.runInPlace] none ∧
    submit_to self (some gc) i true
      = SubmitOutcome.done dispatch_event_external_trace (some true) := by
  constructor <;> simp [submit_to, hi, hc, ht]

/-- Witness for the amended C1 at a concrete in-thread call. -/
theorem submit_to_in_thread_sync_iff_not_always_async_w :
    submit_to 0 (some sampleRegistry) 0 false
      = SubmitOutcome.done [SubmitStep.runInPlace] none ∧
    submit_to 0 (some sampleRegistry) 0 true
      = SubmitOutcome.done dispatch_event_external_trace (some true) :=
  submit_to_in_thread_sync_iff_not_always_async 0 0 sampleRegistry
    sampleCenter (by decide) (by decide) (by decide)

/-- C2: a synchronous cross-thread submission returns only after `f` has
run: the non-owner `always_async = false` path of `submit_to` enqueues a
`nonwait = false` wrapper and then waits; `wait()` can only return in a
wrapper state with `done` set; along any sequence of `do_request` calls
from the fresh wrapper, `done` is set only after `f()` has returned
(`do_request` performs the call to `f` strictly before setting `done`). -/
theorem sync_submit_returns_after_f_ran :
    (∀ self i gc c, i < MAX_EVENTCENTER → AssociatedCenters.slot gc i = some c →
      in_thread self c = false →
      submit_to self (some gc) i false
        = SubmitOutcome.done
            (dispatch_event_external_trace ++ [SubmitStep.waitForDone])
            (some false)) ∧
    (∀ e, SEReach e → wait_returns e = true → e.f_executed = true) ∧
    (∀ e, (do_request e).2.get? 0 = some ReqStep.callF ∧
      (do_request e).2.get? 1 = some ReqStep.setDone ∧
      (do_request e).1.done = true ∧ (do_request e).1.f_executed = true) := by
  refine ⟨?_, ?_, ?_⟩
  · intro self i gc c hi hc ht
    simp [submit_to, hi, hc, ht]
  · intro e h hw
    induction h with
    | init nw => simp [wait_returns, mkSubmitEvent] at hw
    | step e' h ih => simp [do_request]
  · intro e
    exact ⟨rfl, rfl, rfl, rfl⟩

/-- Witness for C2: a concrete non-owner submission enqueues and waits,
and after the wrapper's `do_request` has run, `wait` can return and `f`
has indeed executed. -/
theorem sync_submit_returns_after_f_ran_w :
    submit_to 1 (some sampleRegistry) 0 false
      = SubmitOutcome.done
          (dispatch_event_external_trace ++ [SubmitStep.waitForDone])
          (some false) ∧
    (do_request (mkSubmitEvent false)).1.f_executed = true :=
  ⟨sync_submit_returns_after_f_ran.1 1 0 sampleRegistry sampleCenter
     (by decide) (by decide) (by decide),
   sync_submit_returns_after_f_ran.2.1 _
     (SEReach.step _ (SEReach.init false)) (by decide)⟩

/-- C4: `submit_to(i, f, always_async = true)` from any thread builds a
one-shot `nonwait = true` wrapper, hands it to the target center's
`dispatch_event_external`, and returns without running `f` in place and
without waiting; when the wrapper's `do_request` later runs it calls `f`
exactly once, marks the wrapper done, and deletes itself last. -/
theorem always_async_enqueues_and_self_deletes :
    (∀ self i gc c, i < MAX_EVENTCENTER → AssociatedCenters.slot gc i = some c →
      submit_to self (some gc) i true
        = SubmitOutcome.done dispatch_event_external_trace (some true) ∧
      SubmitStep.waitForDone ∉ dispatch_event_external_trace ∧
      SubmitStep.runInPlace ∉ dispatch_event_external_trace) ∧
    (∀ e : C_submit_event, e.nonwait = true →
      (do_request e).2.count ReqStep.callF = 1 ∧
      (do_request e).1.f_executed = true ∧
      (do_request e).1.deleted = true ∧
      (do_request e).2.getLast? = some ReqStep.selfDelete) := by
  refine ⟨?_, ?_⟩
  · intro self i gc c hi hc
    exact ⟨by simp [submit_to, hi, hc], by decide, by decide⟩
  · intro e h
    have ht : (do_request e).2
        = [ReqStep.callF, ReqStep.setDone, ReqStep.selfDelete] := by
      simp [do_request, h]
    exact ⟨by rw [ht]; decide, rfl, by simp [do_request, h],
      by rw [ht]; decide⟩

/-- Witness for C4: a concrete async submission from thread 5 and the
later `do_request` of its concrete `nonwait` wrapper. -/
theorem always_async_enqueues_and_self_deletes_w :
    (submit_to 5 (some sampleRegistry) 0 true
        = SubmitOutcome.done dispatch_event_external_trace (some true) ∧
      SubmitStep.waitForDone ∉ dispatch_event_external_trace ∧
      SubmitStep.runInPlace ∉ dispatch_event_external_trace) ∧
    ((do_request (mkSubmitEvent true)).2.count ReqStep.callF = 1 ∧
      (do_request (mkSubmitEvent true)).1.f_executed = true ∧
      (do_request (mkSubmitEvent true)).1.deleted = true ∧
      (do_request (mkSubmitEvent true)).2.getLast?
        = some ReqStep.selfDelete) :=
  ⟨always_async_enqueues_and_self_deletes.1 5 0 sampleRegistry sampleCenter
     (by decide) (by decide),
   always_async_enqueues_and_self_deletes.2 (mkSubmitEvent true) rfl⟩

/-- C8: `spawn_worker(entry)` appends exactly one new (joinable) thread
running the given entry function; `join_worker(i)` asserts that `i`
indexes a previously spawned, still-joinable thread, and under that
precondition blocks until that thread exits (its completion implies the
thread finished). -/
theorem spawn_join_worker_managed :
    (∀ s func, (spawn_worker s func).threads
      = s.threads ++ [ThreadRec.mk func true]) ∧
    (∀ s i, ¬ (i < s.threads.length ∧
        (s.threads.getD i (ThreadRec.mk 0 false)).joinable = true) →
      join_worker s i = JoinOutcome.assertFail) ∧
    (∀ s i exited, join_worker_returns s i exited = true →
      i < s.threads.length ∧ exited i = true) := by
  refine ⟨fun s func => rfl, ?_, ?_⟩
  · intro s i h
    simp only [join_worker]
    split
    · rename_i hcond
      exact absurd hcond h
    · rfl
  · intro s i exited h
    unfold join_worker_returns at h
    rw [Bool.and_eq_true, beq_iff_eq] at h
    obtain ⟨hj, he⟩ := h
    refine ⟨?_, he⟩
    unfold join_worker at hj
    split at hj
    · rename_i hcond
      exact hcond.1
    · cases hj

/-- Witness for C8: joining on an empty pool asserts; after one spawn,
the pool has a thread at index 0 and a completed join implies it
exited. -/
theorem spawn_join_worker_managed_w :
    join_worker (PosixNetworkStack.mk []) 0 = JoinOutcome.assertFail ∧
    (0 < (spawn_worker (PosixNetworkStack.mk []) 7).threads.length ∧
      true = true) :=
  ⟨spawn_join_worker_managed.2.1 (PosixNetworkStack.mk []) 0 (by decide),
   spawn_join_worker_managed.2.2 (spawn_worker (PosixNetworkStack.mk []) 7)
     0 (fun _ => true) (by decide)⟩

/-- Helper: characterization of one expired-timer pass — the surviving
deadline list is the longest suffix starting at the first future
deadline, and the step trace is one `timerBlock` per expired entry, in
deadline order. -/
lemma process_time_events_eq (now : Nat) :
    ∀ (te : List (Nat × Nat)) (em : List Nat),
      (process_time_events now te em).1
          = te.dropWhile (fun p => decide (p.1 ≤ now)) ∧
      (process_time_events now te em).2.2
          = (te.takeWhile (fun p => decide (p.1 ≤ now))).flatMap
              (fun p => timerBlock p.2)
  | [], em => by simp [process_time_events]
  | (t, id) :: rest, em => by
    by_cases h : t ≤ now
    · have ih := process_time_events_eq now rest (em.filter (fun x => x ≠ id))
      simp only [ne_eq, decide_not] at ih
      simp [process_time_events, h, ih.1, ih.2]
    · simp [process_time_events, h]

/-- Helper: in a trace made of `timerBlock`s, every callback invocation
for an id is preceded by the removal of that id from both indexes. -/
lemma flatMap_timerBlock_remove_before_invoke :
    ∀ (ids : List Nat) (i id : Nat),
      (ids.flatMap timerBlock).get? i = some (TimerStep.invoke id) →
      ∃ j k, j < i ∧ k < i ∧
        (ids.flatMap timerBlock).get? j = some (TimerStep.removeTE id) ∧
        (ids.flatMap timerBlock).get? k = some (TimerStep.removeEM id)
  | [], i, id => by simp
  | a :: ids, 0, id => by
    intro h
    simp [timerBlock] at h
  | a :: ids, 1, id => by
    intro h
    simp [timerBlock] at h
  | a :: ids, 2, id => by
    intro h
    simp [timerBlock] at h
    subst h
    exact ⟨0, 1, by omega, by omega, by simp [timerBlock], by simp [timerBlock]⟩
  | a :: ids, (n + 3), id => by
    intro h
    have h' : (ids.flatMap timerBlock).get? n = some (TimerStep.invoke id) := by
      simpa [timerBlock] using h
    obtain ⟨j, k, hj, hk, hrj, hrk⟩ :=
      flatMap_timerBlock_remove_before_invoke ids n id h'
    exact ⟨j + 3, k + 3, by omega, by omega,
      by simpa [timerBlock] using hrj, by simpa [timerBlock] using hrk⟩

/-- Helper: binding `timerBlock` over the ids of a pair list. -/
lemma flatMap_timerBlock_snd (l : List (Nat × Nat)) :
    l.flatMap (fun p => timerBlock p.2) = (l.map Prod.snd).flatMap timerBlock := by
  induction l with
  | nil => simp
  | cons a l ih => simp [ih]

/-- C5: one expired-timer pass walks the deadline-ordered collection from
the earliest entry while `deadline <= now` and stops at the first future
deadline (the survivors are exactly the suffix from the first future
entry); its trace is one remove-remove-invoke block per expired entry in
deadline order; and every callback invocation is strictly preceded in the
trace by the removal of its entry from the deadline multimap and from the
id index, so a callback cannot observe or cancel its own just-fired
entry. -/
theorem process_time_events_spec (now : Nat) (te : List (Nat × Nat))
    (em : List Nat) :
    (process_time_events now te em).1
        = te.dropWhile (fun p => decide (p.1 ≤ now)) ∧
    (process_time_events now te em).2.2
        = (te.takeWhile (fun p => decide (p.1 ≤ now))).flatMap
            (fun p => timerBlock p.2) ∧
    (∀ i id, (process_time_events now te em).2.2.get? i
        = some (TimerStep.invoke id) →
      ∃ j k, j < i ∧ k < i ∧
        (process_time_events now te em).2.2.get? j
          = some (TimerStep.removeTE id) ∧
        (process_time_events now te em).2.2.get? k
          = some (TimerStep.removeEM id)) := by
  obtain ⟨h1, h2⟩ := process_time_events_eq now te em
  refine ⟨h1, h2, ?_⟩
  intro i id h
  rw [h2, flatMap_timerBlock_snd] at h
  obtain ⟨j, k, hj, hk, hrj, hrk⟩ :=
    flatMap_timerBlock_remove_before_invoke _ i id h
  rw [h2, flatMap_timerBlock_snd]
  exact ⟨j, k, hj, hk, hrj, hrk⟩

/-- Witness for C5: at time 10 with timers at deadlines 1 (id 5) and 20
(id 9), the invocation of id 5 (trace position 2) is preceded by its
removal from both indexes. -/
theorem process_time_events_spec_w :
    ∃ j k, j < 2 ∧ k < 2 ∧
      (process_time_events 10 [(1, 5), (20, 9)] [5, 9]).2.2.get? j
        = some (TimerStep.removeTE 5) ∧
      (process_time_events 10 [(1, 5), (20, 9)] [5, 9]).2.2.get? k
        = some (TimerStep.removeEM 5) :=
  (process_time_events_spec 10 [(1, 5), (20, 9)] [5, 9]).2.2 2 5 (by decide)

end CephEvent
